import Mathlib

/-!
Verification development for the ContForce plugin (a "continuity" restraint
force for a molecular-simulation engine).

The public API layer (`ContForce.h` / `ContForce.cpp`) is embedded directly
from the source.  The reference evaluation kernel and the `ContForceImpl`
bridge are not part of the reviewed source tree (only their tests and callers
are), so those parts are modelled from the specification, as flagged in the
doc comments of the corresponding definitions.

Real-valued quantities (`double` in the source) are modelled as real numbers.
-/

namespace ContForcePlugin

/-- A 3-component vector of reals, modelling `OpenMM::Vec3`. -/
structure Vec3 where
  x : ℝ
  y : ℝ
  z : ℝ

namespace Vec3

noncomputable instance : Add Vec3 := ⟨fun a b => ⟨a.x + b.x, a.y + b.y, a.z + b.z⟩⟩

noncomputable instance : Sub Vec3 := ⟨fun a b => ⟨a.x - b.x, a.y - b.y, a.z - b.z⟩⟩

noncomputable instance : Neg Vec3 := ⟨fun a => ⟨-a.x, -a.y, -a.z⟩⟩

noncomputable instance : SMul ℝ Vec3 := ⟨fun c a => ⟨c * a.x, c * a.y, c * a.z⟩⟩

instance : Zero Vec3 := ⟨⟨0, 0, 0⟩⟩

/-- Euclidean norm of a `Vec3` (`sqrt(delta.dot(delta))` in the source). -/
noncomputable def norm (v : Vec3) : ℝ := Real.sqrt (v.x ^ 2 + v.y ^ 2 + v.z ^ 2)

theorem add_def (a b : Vec3) : a + b = ⟨a.x + b.x, a.y + b.y, a.z + b.z⟩ := rfl

theorem sub_def (a b : Vec3) : a - b = ⟨a.x - b.x, a.y - b.y, a.z - b.z⟩ := rfl

theorem smul_def (c : ℝ) (a : Vec3) : c • a = ⟨c * a.x, c * a.y, c * a.z⟩ := rfl

theorem neg_def (a : Vec3) : -a = ⟨-a.x, -a.y, -a.z⟩ := rfl

theorem zero_def : (0 : Vec3) = ⟨0, 0, 0⟩ := rfl

theorem zero_x : (0 : Vec3).x = 0 := rfl

theorem zero_y : (0 : Vec3).y = 0 := rfl

theorem zero_z : (0 : Vec3).z = 0 := rfl

end Vec3

/-- `ContForce::BondInfo` from `ContForce.h`: the particle-index chain
(`std::vector<int> idxs`), its cached length (`int npart`), the equilibrium
length and the force constant (both `double`). -/
structure BondInfo where
  idxs : List Int
  npart : Int
  length : ℝ
  k : ℝ

/-- The default `BondInfo()` constructor: empty chain, zero count, zero
length and stiffness. -/
instance : Inhabited BondInfo := ⟨⟨[], 0, 0, 0⟩⟩

/-- `ContForcePlugin::ContForce`: owns the ordered bond table
(`std::vector<BondInfo> bonds`). -/
structure ContForce where
  bonds : List BondInfo

/-- The errors surfaced by the API and the context bridge:
`IndexError` from `ASSERT_VALID_INDEX`, `InvalidArgument` from compile-time
particle-range validation, `StructuralChangeError` from a bond-count mismatch
at synchronization time. -/
inductive ContErr where
  | indexError
  | invalidArgument
  | structuralChangeError
deriving DecidableEq

namespace ContForce

/-- `ContForce::getNumBonds`: `return bonds.size();`. -/
def getNumBonds (f : ContForce) : Int := f.bonds.length

/-- `ContForce::addBond`: pushes a new `BondInfo` and returns
`bonds.size()-1`, the zero-based index of the new bond.  No validation is
performed. -/
def addBond (f : ContForce) (idxs : List Int) (npart : Int) (length k : ℝ) :
    ContForce × Int :=
  let bonds := f.bonds ++ [⟨idxs, npart, length, k⟩]
  (⟨bonds⟩, (bonds.length : Int) - 1)

/-- `ContForce::getBondParameters`: `ASSERT_VALID_INDEX(index, bonds)` throws
an out-of-range exception when `index < 0 || index >= bonds.size()`;
otherwise the four stored fields are copied out. -/
def getBondParameters (f : ContForce) (index : Int) :
    Except ContErr (List Int × Int × ℝ × ℝ) :=
  if index < 0 ∨ (f.bonds.length : Int) ≤ index then .error .indexError
  else
    let b := f.bonds.getD index.toNat default
    .ok (b.idxs, b.npart, b.length, b.k)

/-- `ContForce::setBondParameters`: `ASSERT_VALID_INDEX(index, bonds)` throws
(leaving the table untouched) when the index is out of range; otherwise all
four fields of the entry are overwritten in place.  The result pairs the
post-call table with the call's outcome. -/
def setBondParameters (f : ContForce) (index : Int) (idxs : List Int)
    (npart : Int) (length k : ℝ) : ContForce × Except ContErr Unit :=
  if index < 0 ∨ (f.bonds.length : Int) ≤ index then (f, .error .indexError)
  else (⟨f.bonds.set index.toNat ⟨idxs, npart, length, k⟩⟩, .ok ())

/-- `ContForce::usesPeriodicBoundaryConditions`: `return false;`. -/
def usesPeriodicBoundaryConditions (_f : ContForce) : Bool := false

end ContForce

/-- The compiled per-context state: an immutable `TopologySnapshot`
(each bond's particle chain and count) paired with a mutable
`ParameterSnapshot` (each bond's length and stiffness). -/
structure Snapshot where
  topo : List (List Int × Int)
  params : List (ℝ × ℝ)

/-- Modelled from the spec: the `ContForceImpl` compile step (the impl source
is not in the reviewed tree).  On attachment to a context it copies the whole
bond table into a TopologySnapshot + ParameterSnapshot pair, validating every
particle index against the system's particle count; an out-of-range index
fails with a structural validation (invalid-argument) error. -/
def compile (numSystemParticles : Int) (f : ContForce) : Except ContErr Snapshot :=
  if f.bonds.all (fun b => b.idxs.all (fun p => decide (0 ≤ p ∧ p < numSystemParticles))) then
    .ok ⟨f.bonds.map (fun b => (b.idxs, b.npart)),
         f.bonds.map (fun b => (b.length, b.k))⟩
  else .error .invalidArgument

/-- Modelled from the spec: `ContForce::updateParametersInContext` /
`ContForceImpl::updateParametersInContext` (the impl source is not in the
reviewed tree).  Synchronization copies only length/stiffness for every bond
from the live table into the ParameterSnapshot; it fails with a
StructuralChangeError when the live bond count differs from the compiled
TopologySnapshot's bond count, and never touches the topology. -/
def ContForce.updateParametersInContext (f : ContForce) (s : Snapshot) :
    Except ContErr Snapshot :=
  if f.bonds.length = s.topo.length then
    .ok ⟨s.topo, f.bonds.map (fun b => (b.length, b.k))⟩
  else .error .structuralChangeError

/-- The evaluation-call accumulator: total potential energy plus the shared
per-particle force buffer provided by the host engine. -/
structure EvalState where
  energy : ℝ
  forces : Int → Vec3

/-- Modelled from the spec: one consecutive-pair contribution of the
RestraintKernel.  With `d = position[b] - position[a]`, `r = |d|`,
`dr = r - L`: energy `k * dr^2` is summed into the total, and the force of
magnitude `2*k*dr/r` along `d/r` is accumulated additively into the buffer,
applied to `b` in the `-d` sense and to `a` in the `+d` sense. -/
noncomputable def pairEval (pos : Int → Vec3) (L k : ℝ) (a b : Int)
    (st : EvalState) : EvalState :=
  let d := pos b - pos a
  let r := Vec3.norm d
  let dr := r - L
  { energy := st.energy + k * dr ^ 2
    forces := fun q =>
      st.forces q + (if q = a then (2 * k * dr / r) • d else 0) +
        (if q = b then -((2 * k * dr / r) • d) else 0) }

/-- Modelled from the spec: the RestraintKernel's per-bond loop over the
consecutive pairs `(p[i], p[i+1])` for `i` in `[0, count-2]` of the bond's
chain. -/
noncomputable def bondEval (pos : Int → Vec3) (idxs : List Int) (npart : Int)
    (L k : ℝ) (st : EvalState) : EvalState :=
  (List.range (npart - 1).toNat).foldl
    (fun st i => pairEval pos L k (idxs.getD i 0) (idxs.getD (i + 1) 0) st) st

/-- Modelled from the spec: a full RestraintKernel evaluation call over the
compiled snapshot, accumulating every bond's contributions. -/
noncomputable def execute (pos : Int → Vec3) (s : Snapshot) (st : EvalState) :
    EvalState :=
  (s.topo.zip s.params).foldl
    (fun st bp => bondEval pos bp.1.1 bp.1.2 bp.2.1 bp.2.2 st) st

/-- The fresh accumulator the host engine hands to one evaluation call. -/
noncomputable def initState : EvalState := ⟨0, fun _ => 0⟩

/-- The total potential energy returned by one evaluation of the compiled
context. -/
noncomputable def kernelEnergy (pos : Int → Vec3) (s : Snapshot) : ℝ :=
  (execute pos s initState).energy

/-- The accumulated force on particle `q` after one evaluation of the
compiled context. -/
noncomputable def kernelForce (pos : Int → Vec3) (s : Snapshot) (q : Int) : Vec3 :=
  (execute pos s initState).forces q

/-- The total energy as the claim states it: the sum, over every bond and
every consecutive particle pair `(p[i], p[i+1])` with `i` in `[0, count-2]`
of that bond's chain, of `k_b * (|position[p[i+1]] - position[p[i]]| - L_b)^2`.
Stated from the spec's words, to be compared with the kernel evaluator. -/
noncomputable def specTotalEnergy (pos : Int → Vec3) (s : Snapshot) : ℝ :=
  ∑ j in Finset.range s.topo.length,
    ∑ i in Finset.range (((s.topo.getD j ([], 0)).2 - 1).toNat),
      (s.params.getD j (0, 0)).2 *
        (Vec3.norm (pos ((s.topo.getD j ([], 0)).1.getD (i + 1) 0) -
          pos ((s.topo.getD j ([], 0)).1.getD i 0)) - (s.params.getD j (0, 0)).1) ^ 2

/-- A sequence of `addBond` calls executed in order on a force object,
collecting the returned indices. -/
def runAddBonds (f : ContForce) : List (List Int × Int × ℝ × ℝ) → ContForce × List Int
  | [] => (f, [])
  | c :: cs =>
    let r := f.addBond c.1 c.2.1 c.2.2.1 c.2.2.2
    let rest := runAddBonds r.1 cs
    (rest.1, r.2 :: rest.2)

theorem getD_set_self {α : Type} (l : List α) (i : Nat) (a d : α)
    (h : i < l.length) : (l.set i a).getD i d = a := by
  induction l generalizing i with
  | nil => simp at h
  | cons hd tl ih =>
    cases i with
    | zero => simp
    | succ i => simpa using ih i (by simpa using h)

theorem getD_set_ne {α : Type} (l : List α) (i j : Nat) (a d : α)
    (h : i ≠ j) : (l.set i a).getD j d = l.getD j d := by
  induction l generalizing i j with
  | nil => simp
  | cons hd tl ih =>
    cases i with
    | zero =>
      cases j with
      | zero => exact absurd rfl h
      | succ j => simp
    | succ i =>
      cases j with
      | zero => simp
      | succ j => simpa using ih i j (by omega)

theorem getD_concat_length {α : Type} (l : List α) (a d : α) :
    (l ++ [a]).getD l.length d = a := by
  induction l with
  | nil => simp
  | cons hd tl ih => simp [ih]

theorem runAddBonds_spec (calls : List (List Int × Int × ℝ × ℝ)) :
    ∀ f : ContForce,
      (runAddBonds f calls).1.bonds.length = f.bonds.length + calls.length ∧
      (runAddBonds f calls).2 =
        (List.range' f.bonds.length calls.length).map Int.ofNat := by
  induction calls with
  | nil => intro f; simp [runAddBonds]
  | cons c cs ih =>
    intro f
    have h := ih ⟨f.bonds ++ [⟨c.1, c.2.1, c.2.2.1, c.2.2.2⟩]⟩
    refine ⟨?_, ?_⟩
    · simp only [runAddBonds, ContForce.addBond]
      rw [h.1]
      simp
      omega
    · simp only [runAddBonds, ContForce.addBond]
      rw [h.2]
      simp [List.range'_succ]

/-- Claim C4: For every sequence of `addBond` calls on a freshly constructed
`ContForce`, the returned indices are exactly `0, 1, 2, …` in call order, and
after `n` calls `getNumBonds()` returns `n`. -/
theorem addBond_returns_consecutive_indices
    (calls : List (List Int × Int × ℝ × ℝ)) :
    (runAddBonds ⟨[]⟩ calls).2 = (List.range calls.length).map Int.ofNat ∧
    (runAddBonds ⟨[]⟩ calls).1.getNumBonds = calls.length := by
  have h := runAddBonds_spec calls ⟨[]⟩
  refine ⟨?_, ?_⟩
  · rw [h.2]; simp [List.range_eq_range']
  · simp [ContForce.getNumBonds, h.1]

/-- Claim C5: For every valid index `i < getNumBonds()` and arbitrary particle
list `P`, count `n`, length `L` and stiffness `k`, `setBondParameters`
succeeds and a subsequent `getBondParameters(i)` returns exactly
`(P, n, L, k)`. -/
theorem set_get_roundtrip (f : ContForce) (i : Int) (P : List Int) (n : Int)
    (L k : ℝ) (h0 : 0 ≤ i) (h1 : i < f.getNumBonds) :
    (f.setBondParameters i P n L k).2 = .ok () ∧
    (f.setBondParameters i P n L k).1.getBondParameters i = .ok (P, n, L, k) := by
  have hlen : i < (f.bonds.length : Int) := h1
  have hguard : ¬(i < 0 ∨ (f.bonds.length : Int) ≤ i) := by omega
  refine ⟨?_, ?_⟩
  · simp [ContForce.setBondParameters, hguard]
  · have hset : (f.setBondParameters i P n L k).1 =
        ⟨f.bonds.set i.toNat ⟨P, n, L, k⟩⟩ := by
      simp [ContForce.setBondParameters, hguard]
    rw [hset]
    have hlen' : (f.bonds.set i.toNat ⟨P, n, L, k⟩).length = f.bonds.length := by
      simp
    have htn : i.toNat < f.bonds.length := by omega
    simp only [ContForce.getBondParameters, hlen']
    rw [if_neg hguard]
    rw [getD_set_self _ _ _ _ (by simpa [hlen'] using htn)]

/-- Closed witness for claim C5 at a concrete one-bond table and index 0. -/
theorem set_get_roundtrip_witness :
    ((0 : Int) ≤ 0 ∧ (0 : Int) < (ContForce.mk [⟨[3, 4], 2, 1, 2⟩]).getNumBonds) ∧
    ((ContForce.mk [⟨[3, 4], 2, 1, 2⟩]).setBondParameters 0 [5, 6] 2 3 4).2 = .ok () ∧
    ((ContForce.mk [⟨[3, 4], 2, 1, 2⟩]).setBondParameters 0 [5, 6] 2 3 4).1.getBondParameters 0 =
      .ok ([5, 6], 2, 3, 4) :=
  ⟨⟨le_refl 0, by norm_num [ContForce.getNumBonds]⟩,
    set_get_roundtrip (ContForce.mk [⟨[3, 4], 2, 1, 2⟩]) 0 [5, 6] 2 3 4
      (le_refl 0) (by norm_num [ContForce.getNumBonds])⟩

/-- Claim C6: For every index not less than `getNumBonds()`, both
`getBondParameters` and `setBondParameters` fail with an out-of-range
(IndexError) error and the bond table is left unchanged. -/
theorem out_of_range_index_errors (f : ContForce) (i : Int) (P : List Int)
    (n : Int) (L k : ℝ) (h : f.getNumBonds ≤ i) :
    f.getBondParameters i = .error .indexError ∧
    (f.setBondParameters i P n L k).2 = .error .indexError ∧
    (f.setBondParameters i P n L k).1 = f := by
  have hguard : i < 0 ∨ (f.bonds.length : Int) ≤ i := Or.inr h
  refine ⟨?_, ?_, ?_⟩ <;> simp [ContForce.getBondParameters,
    ContForce.setBondParameters, hguard]

/-- Closed witness for claim C6 at an empty table and index 0. -/
theorem out_of_range_index_errors_witness :
    ((ContForce.mk []).getNumBonds ≤ 0) ∧
    (ContForce.mk []).getBondParameters 0 = .error .indexError ∧
    ((ContForce.mk []).setBondParameters 0 [1] 1 1 1).2 = .error .indexError ∧
    ((ContForce.mk []).setBondParameters 0 [1] 1 1 1).1 = ContForce.mk [] :=
  ⟨by norm_num [ContForce.getNumBonds],
    out_of_range_index_errors (ContForce.mk []) 0 [1] 1 1 1
      (by norm_num [ContForce.getNumBonds])⟩

/-- Claim C9: `usesPeriodicBoundaryConditions()` returns `false` for every
`ContForce` object in every state. -/
theorem uses_pbc_false (f : ContForce) :
    f.usesPeriodicBoundaryConditions = false := rfl

/-- Claim C10: `setBondParameters(i, P, n, L, k)` modifies only the bond at index
`i`: every other index `j ≠ i` reads back unchanged, and `getNumBonds()` is
unchanged. -/
theorem set_frame_effect (f : ContForce) (i : Int) (P : List Int) (n : Int)
    (L k : ℝ) (j : Int) (h : j ≠ i) :
    (f.setBondParameters i P n L k).1.getNumBonds = f.getNumBonds ∧
    (f.setBondParameters i P n L k).1.getBondParameters j =
      f.getBondParameters j := by
  by_cases hguard : i < 0 ∨ (f.bonds.length : Int) ≤ i
  · simp [ContForce.setBondParameters, hguard]
  · have hset : (f.setBondParameters i P n L k).1 =
        ⟨f.bonds.set i.toNat ⟨P, n, L, k⟩⟩ := by
      simp [ContForce.setBondParameters, hguard]
    have hlen : (f.bonds.set i.toNat ⟨P, n, L, k⟩).length = f.bonds.length := by
      simp
    refine ⟨by simp [hset, ContForce.getNumBonds, hlen], ?_⟩
    rw [hset]
    by_cases hj : j < 0 ∨ (f.bonds.length : Int) ≤ j
    · simp only [ContForce.getBondParameters, hlen]
      rw [if_pos hj, if_pos hj]
    · have hne : i.toNat ≠ j.toNat := by omega
      simp only [ContForce.getBondParameters, hlen]
      rw [if_neg hj, if_neg hj, getD_set_ne _ _ _ _ _ hne]

/-- Closed witness for claim C10: a two-bond table, editing index 0 leaves index
1 and the bond count unchanged. -/
theorem set_frame_effect_witness :
    ((1 : Int) ≠ 0) ∧
    ((ContForce.mk [⟨[0], 1, 1, 1⟩, ⟨[2], 1, 5, 6⟩]).setBondParameters 0 [9] 1 7 8).1.getNumBonds =
      (ContForce.mk [⟨[0], 1, 1, 1⟩, ⟨[2], 1, 5, 6⟩]).getNumBonds ∧
    ((ContForce.mk [⟨[0], 1, 1, 1⟩, ⟨[2], 1, 5, 6⟩]).setBondParameters 0 [9] 1 7 8).1.getBondParameters 1 =
      (ContForce.mk [⟨[0], 1, 1, 1⟩, ⟨[2], 1, 5, 6⟩]).getBondParameters 1 :=
  ⟨one_ne_zero,
    set_frame_effect (ContForce.mk [⟨[0], 1, 1, 1⟩, ⟨[2], 1, 5, 6⟩]) 0 [9] 1 7 8 1 one_ne_zero⟩

/-- Counterexample to claim C7: `addBond` and `setBondParameters` perform no
count-vs-list-length validation: with a one-element particle list and a count
of 5, `addBond` succeeds (returns index 0 and stores the mismatched values)
and `setBondParameters` on the stored bond also succeeds — contradicting the
claim that such calls fail with an InvalidArgument error. -/
theorem count_mismatch_not_rejected :
    ((5 : Int) ≠ (([0] : List Int).length : Int)) ∧
    ((ContForce.mk []).addBond [0] 5 1 1).2 = 0 ∧
    ((ContForce.mk []).addBond [0] 5 1 1).1.getBondParameters 0 = .ok ([0], 5, 1, 1) ∧
    (((ContForce.mk []).addBond [0] 5 1 1).1.setBondParameters 0 [0, 1] 7 1 1).2 = .ok () := by
  refine ⟨by norm_num, rfl, ?_, ?_⟩ <;>
    simp [ContForce.addBond, ContForce.getBondParameters,
      ContForce.setBondParameters]

/-- Claim C7 as amended: `addBond` and `setBondParameters` accept a count that
differs from the supplied particle-list length without any error: `addBond`
appends the bond (returning its index, the old bond count) and stores the
mismatched values verbatim, and `setBondParameters` at any valid index
likewise succeeds and stores them verbatim. -/
theorem count_mismatch_stored_verbatim (f : ContForce) (idxs : List Int)
    (npart : Int) (L k : ℝ) (i : Int) (h : npart ≠ (idxs.length : Int))
    (h0 : 0 ≤ i) (h1 : i < f.getNumBonds) :
    (f.addBond idxs npart L k).2 = f.getNumBonds ∧
    (f.addBond idxs npart L k).1.getBondParameters f.getNumBonds =
      .ok (idxs, npart, L, k) ∧
    (f.setBondParameters i idxs npart L k).2 = .ok () ∧
    (f.setBondParameters i idxs npart L k).1.getBondParameters i =
      .ok (idxs, npart, L, k) := by
  have hrt := set_get_roundtrip f i idxs npart L k h0 h1
  refine ⟨?_, ?_, hrt.1, hrt.2⟩
  · simp [ContForce.addBond, ContForce.getNumBonds]
  · have htn : (f.getNumBonds).toNat = f.bonds.length := by
      simp [ContForce.getNumBonds]
    simp only [ContForce.addBond, ContForce.getBondParameters]
    rw [if_neg (by simp only [ContForce.getNumBonds, List.length_append,
      List.length_singleton]; push_cast; omega), htn, getD_concat_length]

/-- Closed witness for the amended claim C7: a one-bond table, mismatched count 5
against list `[0]`. -/
theorem count_mismatch_stored_verbatim_witness :
    (((5 : Int) ≠ (([0] : List Int).length : Int)) ∧ (0 : Int) ≤ 0 ∧
      (0 : Int) < (ContForce.mk [⟨[2, 3], 2, 1, 1⟩]).getNumBonds) ∧
    ((ContForce.mk [⟨[2, 3], 2, 1, 1⟩]).addBond [0] 5 1 1).2 =
      (ContForce.mk [⟨[2, 3], 2, 1, 1⟩]).getNumBonds ∧
    ((ContForce.mk [⟨[2, 3], 2, 1, 1⟩]).addBond [0] 5 1 1).1.getBondParameters
      (ContForce.mk [⟨[2, 3], 2, 1, 1⟩]).getNumBonds = .ok ([0], 5, 1, 1) ∧
    ((ContForce.mk [⟨[2, 3], 2, 1, 1⟩]).setBondParameters 0 [0] 5 1 1).2 = .ok () ∧
    ((ContForce.mk [⟨[2, 3], 2, 1, 1⟩]).setBondParameters 0 [0] 5 1 1).1.getBondParameters 0 =
      .ok ([0], 5, 1, 1) :=
  ⟨⟨by norm_num, le_refl 0, by norm_num [ContForce.getNumBonds]⟩,
    count_mismatch_stored_verbatim (ContForce.mk [⟨[2, 3], 2, 1, 1⟩]) [0] 5 1 1 0
      (by norm_num) (le_refl 0) (by norm_num [ContForce.getNumBonds])⟩

/-- Claim C8: If synchronization (`updateParametersInContext`) is invoked when the
live bond table's bond count differs from the bond count captured in the
compiled topology snapshot, the call fails with a StructuralChangeError. -/
theorem update_mismatch_structural_error (f : ContForce) (s : Snapshot)
    (h : f.bonds.length ≠ s.topo.length) :
    f.updateParametersInContext s = .error .structuralChangeError := by
  simp [ContForce.updateParametersInContext, h]

/-- Closed witness for claim C8: the table grew to one bond after an empty-table
compile. -/
theorem update_mismatch_structural_error_witness :
    ((ContForce.mk [⟨[0, 1], 2, 1, 1⟩]).bonds.length ≠ (Snapshot.mk [] []).topo.length) ∧
    (ContForce.mk [⟨[0, 1], 2, 1, 1⟩]).updateParametersInContext (Snapshot.mk [] []) =
      .error .structuralChangeError :=
  ⟨by norm_num,
    update_mismatch_structural_error (ContForce.mk [⟨[0, 1], 2, 1, 1⟩])
      (Snapshot.mk [] []) (by norm_num)⟩

theorem pairEval_energy (pos : Int → Vec3) (L k : ℝ) (a b : Int)
    (st : EvalState) :
    (pairEval pos L k a b st).energy =
      st.energy + k * (Vec3.norm (pos b - pos a) - L) ^ 2 := rfl

theorem foldl_pairEval_energy (pos : Int → Vec3) (L k : ℝ) (idxs : List Int)
    (n : Nat) :
    ∀ st : EvalState,
      ((List.range n).foldl
        (fun st i => pairEval pos L k (idxs.getD i 0) (idxs.getD (i + 1) 0) st)
        st).energy =
      st.energy + ∑ i in Finset.range n,
        k * (Vec3.norm (pos (idxs.getD (i + 1) 0) - pos (idxs.getD i 0)) - L) ^ 2 := by
  induction n with
  | zero => intro st; simp
  | succ n ih =>
    intro st
    rw [List.range_succ, List.foldl_append, List.foldl_cons, List.foldl_nil,
      pairEval_energy, ih, Finset.sum_range_succ, add_assoc]

theorem bondEval_energy (pos : Int → Vec3) (idxs : List Int) (npart : Int)
    (L k : ℝ) (st : EvalState) :
    (bondEval pos idxs npart L k st).energy =
      st.energy + ∑ i in Finset.range (npart - 1).toNat,
        k * (Vec3.norm (pos (idxs.getD (i + 1) 0) - pos (idxs.getD i 0)) - L) ^ 2 :=
  foldl_pairEval_energy pos L k idxs (npart - 1).toNat st

theorem execute_energy (pos : Int → Vec3) :
    ∀ (l : List ((List Int × Int) × ℝ × ℝ)) (st : EvalState),
      (l.foldl (fun st bp => bondEval pos bp.1.1 bp.1.2 bp.2.1 bp.2.2 st) st).energy =
      st.energy + (l.map (fun bp => ∑ i in Finset.range (bp.1.2 - 1).toNat,
        bp.2.2 * (Vec3.norm (pos (bp.1.1.getD (i + 1) 0) -
          pos (bp.1.1.getD i 0)) - bp.2.1) ^ 2)).sum := by
  intro l
  induction l with
  | nil => intro st; simp
  | cons hd tl ih =>
    intro st
    simp only [List.foldl_cons, List.map_cons, List.sum_cons]
    rw [ih, bondEval_energy, add_assoc]

theorem zip_map_sum {α β : Type} (F : α × β → ℝ) (dt : α) (dp : β) :
    ∀ (l1 : List α) (l2 : List β), l1.length = l2.length →
      ((l1.zip l2).map F).sum =
        ∑ j in Finset.range l1.length, F (l1.getD j dt, l2.getD j dp) := by
  intro l1
  induction l1 with
  | nil => intro l2 h; simp
  | cons a l1 ih =>
    intro l2 h
    cases l2 with
    | nil => simp at h
    | cons b l2 =>
      simp only [List.zip_cons_cons, List.map_cons, List.sum_cons,
        List.length_cons]
      rw [Finset.sum_range_succ']
      simp only [List.getD_cons_succ, List.getD_cons_zero]
      rw [ih l2 (by simpa using h)]
      ring

/-- Claim C1: For every compiled context and every position assignment, the total
potential energy returned by evaluation equals the sum, over every bond and
every consecutive particle pair `(p[i], p[i+1])` with `i` in `[0, count-2]`
of that bond's chain, of `k_b * (|position[p[i+1]] - position[p[i]]| - L_b)^2`;
in particular a bond with `count == 1` contributes nothing (it leaves the
whole evaluation state untouched). -/
theorem compiled_energy_eq_sum (numSystemParticles : Int) (f : ContForce)
    (s : Snapshot) (pos : Int → Vec3)
    (h : compile numSystemParticles f = .ok s) :
    kernelEnergy pos s = specTotalEnergy pos s ∧
    ∀ (idxs : List Int) (L k : ℝ) (st : EvalState),
      bondEval pos idxs 1 L k st = st := by
  have hs : s = ⟨f.bonds.map (fun b => (b.idxs, b.npart)),
      f.bonds.map (fun b => (b.length, b.k))⟩ := by
    unfold compile at h
    split at h
    · injection h with h; exact h.symm
    · simp at h
  have hlen : s.topo.length = s.params.length := by rw [hs]; simp
  refine ⟨?_, fun idxs L k st => rfl⟩
  show (execute pos s initState).energy = specTotalEnergy pos s
  unfold execute initState specTotalEnergy
  rw [execute_energy]
  rw [zip_map_sum (fun bp => ∑ i in Finset.range (bp.1.2 - 1).toNat,
      bp.2.2 * (Vec3.norm (pos (bp.1.1.getD (i + 1) 0) -
        pos (bp.1.1.getD i 0)) - bp.2.1) ^ 2) ([], 0) (0, 0) s.topo s.params hlen]
  simp

/-- A small compiled scenario used to witness claim C1: a three-particle chain
bond and a singleton bond. -/
noncomputable def c1f : ContForce := ⟨[⟨[0, 1, 2], 3, 1, 17⟩, ⟨[3], 1, 1, 2⟩]⟩

/-- The snapshot `compile` produces for `c1f` in a 4-particle system. -/
noncomputable def c1snap : Snapshot :=
  ⟨[([0, 1, 2], 3), ([3], 1)], [(1, 17), (1, 2)]⟩

/-- Positions used to witness claim C1. -/
noncomputable def c1pos : Int → Vec3 := fun i => ⟨(i : ℝ), 0, 0⟩

/-- Closed witness for claim C1: the compile hypothesis holds for `c1f` and the
conclusion follows at that snapshot; a `count == 1` bond leaves the state
untouched. -/
theorem compiled_energy_eq_sum_witness :
    compile 4 c1f = .ok c1snap ∧
    kernelEnergy c1pos c1snap = specTotalEnergy c1pos c1snap ∧
    bondEval c1pos [5] 1 1 2 initState = initState :=
  ⟨rfl, (compiled_energy_eq_sum 4 c1f c1snap c1pos rfl).1,
    (compiled_energy_eq_sum 4 c1f c1snap c1pos rfl).2 [5] 1 2 initState⟩

theorem bondEval_two (pos : Int → Vec3) (a b : Int) (L k : ℝ)
    (st : EvalState) :
    bondEval pos [a, b] 2 L k st = pairEval pos L k a b st := by
  have h2 : ((2 : Int) - 1).toNat = 1 := rfl
  have hr : List.range 1 = [0] := rfl
  simp [bondEval, h2, hr]

theorem kernelEnergy_single_pair (pos : Int → Vec3) (a b : Int) (L k : ℝ) :
    kernelEnergy pos ⟨[([a, b], 2)], [(L, k)]⟩ =
      k * (Vec3.norm (pos b - pos a) - L) ^ 2 := by
  show (execute pos ⟨[([a, b], 2)], [(L, k)]⟩ initState).energy = _
  simp [execute, bondEval_two, pairEval_energy, initState]

/-- Positions of the single-bond parameter-update scenario: particle 0 at
`(1,0,0)`, particle 1 at `(2,0,0)`. -/
noncomputable def c2pos : Int → Vec3 :=
  fun i => if i = 1 then ⟨2, 0, 0⟩ else ⟨1, 0, 0⟩

/-- The force of the parameter-update scenario after its single `addBond`
with `length = 0.5`, `k = 1.5`. -/
noncomputable def c2f0 : ContForce := ⟨[⟨[0, 1], 2, 0.5, 1.5⟩]⟩

/-- The snapshot compiled from `c2f0`. -/
noncomputable def c2snap : Snapshot := ⟨[([0, 1], 2)], [(0.5, 1.5)]⟩

/-- The live table after `setBondParameters(0, [0,1], 2, 0.9, 2.2)`. -/
noncomputable def c2f1 : ContForce := ⟨[⟨[0, 1], 2, 0.9, 2.2⟩]⟩

/-- The snapshot after synchronizing `c2f1` into the compiled context. -/
noncomputable def c2snap2 : Snapshot := ⟨[([0, 1], 2)], [(0.9, 2.2)]⟩

/-- Claim C2: For a single two-particle bond at `(1,0,0)` and `(2,0,0)` created
with `length = 0.5`, `k = 1.5`, the compiled context's energy equals
`1.5 * (1.0 - 0.5)^2`; and after `setBondParameters(0, [0,1], 2, 0.9, 2.2)`
followed by `updateParametersInContext` on the same compiled snapshot (no
reconstruction), the energy equals `2.2 * (1.0 - 0.9)^2`. -/
theorem single_bond_parameter_update_energy :
    ((ContForce.mk []).addBond [0, 1] 2 0.5 1.5).1 = c2f0 ∧
    compile 2 c2f0 = .ok c2snap ∧
    kernelEnergy c2pos c2snap = 1.5 * (1.0 - 0.5) ^ 2 ∧
    c2f0.setBondParameters 0 [0, 1] 2 0.9 2.2 = (c2f1, .ok ()) ∧
    c2f1.updateParametersInContext c2snap = .ok c2snap2 ∧
    kernelEnergy c2pos c2snap2 = 2.2 * (1.0 - 0.9) ^ 2 := by
  have hn : Vec3.norm (c2pos 1 - c2pos 0) = 1 := by
    have hd : c2pos 1 - c2pos 0 = ⟨1, 0, 0⟩ := by
      norm_num [c2pos, Vec3.sub_def]
    rw [hd]
    norm_num [Vec3.norm, Real.sqrt_one]
  refine ⟨rfl, rfl, ?_, rfl, rfl, ?_⟩
  · show kernelEnergy c2pos (⟨[([0, 1], 2)], [(0.5, 1.5)]⟩ : Snapshot) = _
    rw [kernelEnergy_single_pair, hn]
    norm_num
  · show kernelEnergy c2pos (⟨[([0, 1], 2)], [(0.9, 2.2)]⟩ : Snapshot) = _
    rw [kernelEnergy_single_pair, hn]
    norm_num

/-- Positions of the shared-particle scenario: particle 0 at the origin,
particle 1 at `(-1,0,0)`, particle 2 at `(1,0,0)`. -/
noncomputable def c3pos : Int → Vec3 :=
  fun i => if i = 1 then ⟨-1, 0, 0⟩ else if i = 2 then ⟨1, 0, 0⟩ else ⟨0, 0, 0⟩

/-- The force of the shared-particle scenario: two separate two-particle
bonds `[0,1]` and `[0,2]`, both with `length = 0.5`, `k = 17`. -/
noncomputable def c3f : ContForce :=
  ⟨[⟨[0, 1], 2, 0.5, 17⟩, ⟨[0, 2], 2, 0.5, 17⟩]⟩

/-- The snapshot compiled from `c3f`. -/
noncomputable def c3snap : Snapshot :=
  ⟨[([0, 1], 2), ([0, 2], 2)], [(0.5, 17), (0.5, 17)]⟩

/-- Claim C3: Per-pair force contributions are accumulated additively into a
particle shared by several bonds: for a particle at the origin bonded by two
separate two-particle bonds to particles at `(-1,0,0)` and `(1,0,0)`, both
bonds with `length = 0.5`, `k = 17`, the net accumulated force on the shared
origin particle is exactly zero on every coordinate axis. -/
theorem shared_particle_force_cancels :
    compile 3 c3f = .ok c3snap ∧
    (kernelForce c3pos c3snap 0).x = 0 ∧
    (kernelForce c3pos c3snap 0).y = 0 ∧
    (kernelForce c3pos c3snap 0).z = 0 := by
  have hd1 : c3pos 1 - c3pos 0 = ⟨-1, 0, 0⟩ := by
    norm_num [c3pos, Vec3.sub_def]
  have hd2 : c3pos 2 - c3pos 0 = ⟨1, 0, 0⟩ := by
    norm_num [c3pos, Vec3.sub_def]
  have hn1 : Vec3.norm ⟨-1, 0, 0⟩ = 1 := by
    norm_num [Vec3.norm, Real.sqrt_one]
  have hn2 : Vec3.norm ⟨1, 0, 0⟩ = 1 := by
    norm_num [Vec3.norm, Real.sqrt_one]
  have hex : kernelForce c3pos c3snap 0 =
      (pairEval c3pos 0.5 17 0 2 (pairEval c3pos 0.5 17 0 1 initState)).forces 0 := by
    show (execute c3pos c3snap initState).forces 0 = _
    simp [execute, c3snap, bondEval_two]
  refine ⟨rfl, ?_, ?_, ?_⟩ <;>
  · rw [hex]
    simp only [pairEval, initState]
    rw [hd1, hd2, hn1, hn2]
    norm_num [Vec3.add_def, Vec3.smul_def, Vec3.neg_def, Vec3.zero_x,
      Vec3.zero_y, Vec3.zero_z]

end ContForcePlugin
